import Mathlib

/-!
Shallow embedding of `gcsproxy` (`src/main.go`): an HTTP gateway that serves
GCS objects, translating object attributes and whitelisted metadata into HTTP
response headers, enforcing one metadata-driven block rule, and honoring
`If-Modified-Since` conditional requests.

Interaction with the storage backend (attribute fetch, reader open) is modelled
by passing the backend's results as explicit inputs to the request pipeline.
Go `time.Time` values are modelled as integer nanoseconds since Go's zero time
(`time.Time{}`, whose `IsZero` is `= 0` here); `Truncate(time.Second)` floors
to a whole second. Go map metadata is modelled as an association list; Go map
indexing with a missing key yields the zero value `""`, modelled by `lookupMeta`.
-/

namespace Gcsproxy

/-- Errors surfaced by the storage client. `objectNotExist` models the
distinguished sentinel `storage.ErrObjectNotExist`; `other` models every other
error, carrying its `Error()` text. -/
inductive GcsError where
  | objectNotExist
  | other (msg : String)
deriving DecidableEq, Repr

/-- The `Error()` text of a storage error. `storage.ErrObjectNotExist.Error()`
is the fixed string from the Go client library. -/
def GcsError.message : GcsError → String
  | .objectNotExist => "storage: object does not exist"
  | .other msg => msg

/-- `storage.ObjectAttrs` fields read by the proxy (`attr` in `proxy`,
src/main.go lines 109, 143-148, 159, 181). `updated` is nanoseconds since the
Go zero time. `contentEncoding` and `size` are present on the static attributes
but the proxy reads those two fields from the reader's attributes instead. -/
structure ObjectAttrs where
  name : String
  contentType : String
  contentLanguage : String
  cacheControl : String
  contentDisposition : String
  contentEncoding : String
  size : Int
  metadata : List (String × String)
  updated : Int
deriving DecidableEq, Repr

/-- The reader's own attributes (`objr.Attrs`, src/main.go lines 147, 149),
which may differ from the object's static attributes in compressed-read mode. -/
structure ReaderAttrs where
  contentEncoding : String
  size : Int
deriving DecidableEq, Repr

/-- The open read stream (`objr`): its attributes and the bytes `io.Copy`
will deliver (modelled as a string). -/
structure Reader where
  attrs : ReaderAttrs
  content : String
deriving DecidableEq, Repr

/-- The two configuration flags the pipeline reads (src/main.go lines 23-24):
`-block-if` (`key:value`) and `-pass-through` (comma-separated keys). -/
structure Config where
  blockIfMeta : String
  passthroughMeta : String
deriving DecidableEq, Repr

/-- The request data the pipeline consumes. `ifModifiedSince` models the
`If-Modified-Since` header together with the outcome of `http.ParseTime`
(an external collaborator): `none` = header absent, `some none` = header
present but unparsable, `some (some t)` = header parses to time `t`
(nanoseconds since the zero time). -/
structure Request where
  ifModifiedSince : Option (Option Int)
deriving DecidableEq, Repr

/-- The observable HTTP response: status code, headers added before the status
was written, and the body bytes. -/
structure Response where
  status : Nat
  headers : List (String × String)
  body : String
deriving DecidableEq, Repr

/-- Split a character list at every occurrence of `sep`. Splitting the empty
list yields one empty part, matching Go `strings.Split("", sep) = [""]`. -/
def splitSep (sep : Char) : List Char → List (List Char)
  | [] => [[]]
  | c :: cs =>
    match splitSep sep cs with
    | [] => [[]]
    | s :: ss => if c = sep then [] :: s :: ss else (c :: s) :: ss

/-- Go `strings.Split(s, sep)` for the single-character separators the code
uses (`":"` and `","`): the substrings between consecutive separators,
including empty ones; the empty string yields `[""]`. -/
def goSplit (s : String) (sep : Char) : List String :=
  (splitSep sep s.data).map String.mk

/-- Go map indexing `attr.Metadata[key]`: the value at the key, or the zero
value `""` when the key is absent. -/
def lookupMeta (m : List (String × String)) (k : String) : String :=
  (m.lookup k).getD ""

/-- `handleError` (src/main.go lines 32-41): the sentinel not-exist error maps
to 404, anything else to 500; `http.Error` writes the error text plus a newline
as the body. `hdrs` are the headers already added to the response writer at the
point of the call (they are sent along with the error status). -/
def handleError (hdrs : List (String × String)) (e : GcsError) : Response :=
  if e = GcsError.objectNotExist then
    { status := 404, headers := hdrs, body := e.message ++ "\n" }
  else
    { status := 500, headers := hdrs, body := e.message ++ "\n" }

/-- `parseBlockIfMeta` (src/main.go lines 166-175): split the `-block-if`
flag on `":"`; exactly two parts yield `(key, value)`, otherwise an error.
The Go code formats the error with `%v` applied to `blockIfMeta`, which is the
`*string` flag POINTER, not its dereferenced value, so the message embeds the
pointer's address rendering; `ptrRepr` models that rendering (e.g.
`"0xc000014028"`). -/
def parseBlockIfMeta (cfg ptrRepr : String) : Except String (String × String) :=
  match goSplit cfg ':' with
  | [k, v] => Except.ok (k, v)
  | _ => Except.error ("unexpected block-if argument: " ++ ptrRepr)

/-- `isBlocked` (src/main.go lines 153-160): parse the block rule, propagate a
parse error, otherwise compare `attr.Metadata[key]` to the rule value by exact
string equality. -/
def isBlocked (cfg ptrRepr : String) (attr : ObjectAttrs) : Except String Bool :=
  match parseBlockIfMeta cfg ptrRepr with
  | Except.error e => Except.error e
  | Except.ok (key, value) => Except.ok (lookupMeta attr.metadata key == value)

/-- `parsePassthroughMeta` (src/main.go lines 188-197): split the
`-pass-through` flag on `","`; the resulting set is modelled by the list of
parts, with membership as set membership. -/
def parsePassthroughMeta (cfg : String) : List String :=
  goSplit cfg ','

/-- The fixed passthrough header name pre-string (src/main.go line 180). -/
def metaPrefix : String := "X-Goog-Meta-"

/-- `setStrHeader` (src/main.go lines 53-57): add the header only when the
value is non-empty. Modelled as the list of headers added. -/
def setStrHeader (key value : String) : List (String × String) :=
  if value ≠ "" then [(key, value)] else []

/-- `setIntHeader` (src/main.go lines 59-63): add the header only when the
value is strictly positive, rendered in decimal. -/
def setIntHeader (key : String) (value : Int) : List (String × String) :=
  if value > 0 then [(key, toString value)] else []

/-- Stands for `value.UTC().Format(http.TimeFormat)` (src/main.go line 67).
The Go formatter is stdlib (an external collaborator); no claim inspects the
formatted text, so its rendering is abstracted to the decimal nanosecond count. -/
def formatHTTPTime (t : Int) : String := toString t

/-- `setTimeHeader` (src/main.go lines 65-69): add the header only when the
time is not the zero time. -/
def setTimeHeader (key : String) (value : Int) : List (String × String) :=
  if value ≠ 0 then [(key, formatHTTPTime value)] else []

/-- `writeMetadataHeaders` (src/main.go lines 177-186): for each metadata entry
whose key is in the passthrough set, add one header named prefix ++ key with
the metadata value (through `setStrHeader`, hence only when non-empty). -/
def writeMetadataHeaders (passthroughCfg : String) (metadata : List (String × String)) :
    List (String × String) :=
  metadata.foldr
    (fun kv acc =>
      (if (parsePassthroughMeta passthroughCfg).contains kv.1 then
        setStrHeader (metaPrefix ++ kv.1) kv.2
      else []) ++ acc)
    []

/-- Nanoseconds per second, for `Truncate(time.Second)`. -/
def nsPerSecond : Int := 1000000000

/-- `t.Truncate(time.Second)`: round down to a whole second since the zero
time (src/main.go line 133). -/
def truncateSecond (t : Int) : Int := t - t.emod nsPerSecond

/-- The content headers set on the 200 path (src/main.go lines 143-149), in
source order: `Last-Modified`, `Content-Type`, `Content-Language`,
`Cache-Control` and `Content-Disposition` from the static attributes,
`Content-Encoding` and `Content-Length` from the reader's attributes. -/
def contentHeaders (attr : ObjectAttrs) (rattrs : ReaderAttrs) : List (String × String) :=
  setTimeHeader "Last-Modified" attr.updated ++
  setStrHeader "Content-Type" attr.contentType ++
  setStrHeader "Content-Language" attr.contentLanguage ++
  setStrHeader "Cache-Control" attr.cacheControl ++
  setStrHeader "Content-Encoding" rattrs.contentEncoding ++
  setStrHeader "Content-Disposition" attr.contentDisposition ++
  setIntHeader "Content-Length" rattrs.size

/-- `proxy` (src/main.go lines 105-151). Inputs: the configuration flags, the
request, the pointer rendering used by the block-rule parse error, and the
backend's results for the attribute fetch and the reader open. Control flow
follows the source: fetch attributes (error → `handleError` with no headers
added yet); evaluate the block rule (parse error → `handleError`, i.e. 500;
blocked → bare 404); write passthrough metadata headers; if an
`If-Modified-Since` header is present, take the parsed time (the zero time when
parsing failed, as `http.ParseTime` returns the zero `time.Time` on error) and
respond 304 when the truncated update time is not strictly after it; otherwise
open the reader (error → `handleError`, with the metadata headers already
added), set the content headers and stream the body. -/
def proxy (cfg : Config) (req : Request) (ptrRepr : String)
    (attrsResult : Except GcsError ObjectAttrs)
    (readerResult : Except GcsError Reader) : Response :=
  match attrsResult with
  | Except.error e => handleError [] e
  | Except.ok attr =>
    match isBlocked cfg.blockIfMeta ptrRepr attr with
    | Except.error msg => handleError [] (GcsError.other msg)
    | Except.ok blocked =>
      if blocked then
        { status := 404, headers := [], body := "" }
      else
        let metaHdrs := writeMetadataHeaders cfg.passthroughMeta attr.metadata
        let serve : Response :=
          match readerResult with
          | Except.error e => handleError metaHdrs e
          | Except.ok rdr =>
            { status := 200
              headers := metaHdrs ++ contentHeaders attr rdr.attrs
              body := rdr.content }
        match req.ifModifiedSince with
        | some parsed =>
          if ¬ (truncateSecond attr.updated > parsed.getD 0) then
            { status := 304, headers := metaHdrs, body := "" }
          else serve
        | none => serve

/-- The conditional-GET gate let the request through to the reader: either no
`If-Modified-Since` header, or the truncated update time is strictly after the
(possibly zero, on parse failure) parsed time. -/
def proceedsToRead (req : Request) (attr : ObjectAttrs) : Bool :=
  match req.ifModifiedSince with
  | none => true
  | some parsed => truncateSecond attr.updated > parsed.getD 0

instance {ε α : Type} [DecidableEq ε] [DecidableEq α] : DecidableEq (Except ε α) := fun x y =>
  match x, y with
  | Except.error a, Except.error b =>
    if h : a = b then isTrue (by rw [h]) else isFalse (fun he => by cases he; exact h rfl)
  | Except.error _, Except.ok _ => isFalse (fun he => by cases he)
  | Except.ok _, Except.error _ => isFalse (fun he => by cases he)
  | Except.ok a, Except.ok b =>
    if h : a = b then isTrue (by rw [h]) else isFalse (fun he => by cases he; exact h rfl)

/-! ### Helper lemmas -/

theorem mem_setStrHeader {n v key val : String} :
    (n, v) ∈ setStrHeader key val ↔ (n = key ∧ v = val ∧ val ≠ "") := by
  unfold setStrHeader
  split
  · simp_all [Prod.ext_iff, and_comm]
  · simp_all

theorem mem_setIntHeader {n v key : String} {i : Int} :
    (n, v) ∈ setIntHeader key i ↔ (n = key ∧ v = toString i ∧ 0 < i) := by
  unfold setIntHeader
  split
  · simp_all [Prod.ext_iff, and_comm]
  · simp_all

theorem mem_setTimeHeader {n v key : String} {t : Int} :
    (n, v) ∈ setTimeHeader key t ↔ (n = key ∧ v = formatHTTPTime t ∧ t ≠ 0) := by
  unfold setTimeHeader
  split
  · simp_all [Prod.ext_iff, and_comm]
  · simp_all

theorem stringAppend_left_cancel {s t u : String} (h : s ++ t = s ++ u) : t = u := by
  apply String.ext
  have hd : s.data ++ t.data = s.data ++ u.data := by
    rw [← String.data_append s t, ← String.data_append s u, h]
  exact List.append_cancel_left hd

theorem mem_writeMetadataHeaders {cfg : String} {m : List (String × String)}
    {nv : String × String} :
    nv ∈ writeMetadataHeaders cfg m ↔
      ∃ k v, nv = (metaPrefix ++ k, v) ∧ (k, v) ∈ m ∧
        k ∈ parsePassthroughMeta cfg ∧ v ≠ "" := by
  induction m with
  | nil => simp [writeMetadataHeaders]
  | cons kv rest ih =>
    obtain ⟨k0, v0⟩ := kv
    show nv ∈ (if (parsePassthroughMeta cfg).contains k0 then
        setStrHeader (metaPrefix ++ k0) v0 else []) ++ writeMetadataHeaders cfg rest ↔ _
    rw [List.mem_append]
    constructor
    · rintro (hl | hr)
      · rw [show nv = (nv.1, nv.2) from rfl] at hl
        split at hl
        · rw [mem_setStrHeader] at hl
          refine ⟨k0, v0, ?_, ?_, ?_, hl.2.2⟩
          · rw [show nv = (nv.1, nv.2) from rfl, hl.1, hl.2.1]
          · simp
          · simp_all
        · simp at hl
      · obtain ⟨k, v, hnv, hm, hpass, hv⟩ := ih.mp hr
        exact ⟨k, v, hnv, List.mem_cons_of_mem _ hm, hpass, hv⟩
    · rintro ⟨k, v, hnv, hm, hpass, hv⟩
      rcases List.mem_cons.mp hm with hhead | htail
      · left
        have hk : k = k0 := congrArg Prod.fst hhead
        have hvv : v = v0 := congrArg Prod.snd hhead
        subst hk
        subst hvv
        have hc : (parsePassthroughMeta cfg).contains k = true := by simp [hpass]
        rw [hc]
        simp only [if_true]
        rw [hnv, mem_setStrHeader]
        exact ⟨rfl, rfl, hv⟩
      · exact Or.inr (ih.mpr ⟨k, v, hnv, htail, hpass, hv⟩)

theorem writeMetadataHeaders_shape {cfg : String} {m : List (String × String)}
    {nv : String × String} (h : nv ∈ writeMetadataHeaders cfg m) :
    ∃ k, nv.1 = metaPrefix ++ k ∧ k ∈ parsePassthroughMeta cfg := by
  obtain ⟨k, v, hnv, _, hpass, _⟩ := mem_writeMetadataHeaders.mp h
  exact ⟨k, by rw [hnv], hpass⟩

theorem metaPrefix_append_ne {name : String}
    (hpre : ¬ (metaPrefix.data <+: name.data)) (k : String) :
    metaPrefix ++ k ≠ name := by
  intro he
  apply hpre
  rw [← he, String.data_append]
  exact ⟨k.data, rfl⟩

/-- The 304 path (src/main.go lines 128-136): header present, truncated update
time not strictly after the parsed time (zero time when parsing failed). -/
theorem proxy_not_modified (cfg : Config) (req : Request) (ptr : String)
    (attr : ObjectAttrs) (rdrRes : Except GcsError Reader) (parsed : Option Int)
    (hb : isBlocked cfg.blockIfMeta ptr attr = Except.ok false)
    (hims : req.ifModifiedSince = some parsed)
    (hle : ¬ truncateSecond attr.updated > parsed.getD 0) :
    proxy cfg req ptr (Except.ok attr) rdrRes =
      { status := 304,
        headers := writeMetadataHeaders cfg.passthroughMeta attr.metadata,
        body := "" } := by
  simp only [proxy]
  rw [hb]
  simp [hims, hle]

/-- The read path (src/main.go lines 138-150): not blocked and the
conditional-GET gate lets the request through; the reader result decides
between `handleError` (with the metadata headers already written) and 200. -/
theorem proxy_read_path (cfg : Config) (req : Request) (ptr : String)
    (attr : ObjectAttrs) (rdrRes : Except GcsError Reader)
    (hb : isBlocked cfg.blockIfMeta ptr attr = Except.ok false)
    (hp : proceedsToRead req attr = true) :
    proxy cfg req ptr (Except.ok attr) rdrRes =
      match rdrRes with
      | Except.error e =>
        handleError (writeMetadataHeaders cfg.passthroughMeta attr.metadata) e
      | Except.ok rdr =>
        { status := 200,
          headers := writeMetadataHeaders cfg.passthroughMeta attr.metadata ++
            contentHeaders attr rdr.attrs,
          body := rdr.content } := by
  unfold proceedsToRead at hp
  simp only [proxy]
  rw [hb]
  cases hims : req.ifModifiedSince with
  | none => simp
  | some parsed =>
    rw [hims] at hp
    simp only [decide_eq_true_eq] at hp
    simp [hims, hp]

/-! ### Concrete inputs used by counterexamples and witnesses -/

/-- A fetchable object with one metadata entry and a 2-second update time. -/
def attrSample : ObjectAttrs where
  name := "a.txt"
  contentType := "text/plain"
  contentLanguage := ""
  cacheControl := ""
  contentDisposition := ""
  contentEncoding := ""
  size := 5
  metadata := [("a", "b")]
  updated := 2000000000

/-- An open reader delivering five plain-text bytes. -/
def rdrSample : Reader where
  attrs := { contentEncoding := "", size := 5 }
  content := "hello"

/-! ### Claims -/

/-- Claim C9: splitting the empty passthrough-configuration string produces a
set with exactly one member, the empty string, so a metadata key literally
equal to the empty string counts as whitelisted. -/
theorem c9_empty_passthrough_contains_empty_string :
    parsePassthroughMeta "" = [""] ∧ "" ∈ parsePassthroughMeta "" := by
  exact ⟨by decide, by decide⟩

/-- Claim C10: with the default empty `-block-if` value, splitting on `":"`
yields one part, the block-rule parse always fails, and every request whose
attribute fetch succeeds terminates with a 500 error. -/
theorem c10_default_block_rule_500
    (cfg : Config) (req : Request) (ptr : String) (attr : ObjectAttrs)
    (rdrRes : Except GcsError Reader) (hcfg : cfg.blockIfMeta = "") :
    goSplit cfg.blockIfMeta ':' = [""] ∧
    parseBlockIfMeta cfg.blockIfMeta ptr =
      Except.error ("unexpected block-if argument: " ++ ptr) ∧
    (proxy cfg req ptr (Except.ok attr) rdrRes).status = 500 ∧
    (proxy cfg req ptr (Except.ok attr) rdrRes).body =
      "unexpected block-if argument: " ++ ptr ++ "\n" := by
  have hsplit : goSplit cfg.blockIfMeta ':' = [""] := by rw [hcfg]; rfl
  have hparse : parseBlockIfMeta cfg.blockIfMeta ptr =
      Except.error ("unexpected block-if argument: " ++ ptr) := by
    unfold parseBlockIfMeta
    rw [hsplit]
  have hblk : isBlocked cfg.blockIfMeta ptr attr =
      Except.error ("unexpected block-if argument: " ++ ptr) := by
    unfold isBlocked
    rw [hparse]
  refine ⟨hsplit, hparse, ?_, ?_⟩ <;>
    simp [proxy, hblk, handleError, GcsError.message, String.append_assoc]

/-- Witness for C10 at the default configuration. -/
theorem c10_default_block_rule_500_witness :
    goSplit (Config.blockIfMeta { blockIfMeta := "", passthroughMeta := "" }) ':' = [""] ∧
    parseBlockIfMeta
      (Config.blockIfMeta { blockIfMeta := "", passthroughMeta := "" }) "0xc000014028" =
      Except.error ("unexpected block-if argument: " ++ "0xc000014028") ∧
    (proxy { blockIfMeta := "", passthroughMeta := "" } { ifModifiedSince := none }
      "0xc000014028" (Except.ok attrSample) (Except.ok rdrSample)).status = 500 ∧
    (proxy { blockIfMeta := "", passthroughMeta := "" } { ifModifiedSince := none }
      "0xc000014028" (Except.ok attrSample) (Except.ok rdrSample)).body =
      "unexpected block-if argument: " ++ "0xc000014028" ++ "\n" :=
  c10_default_block_rule_500 { blockIfMeta := "", passthroughMeta := "" }
    { ifModifiedSince := none } "0xc000014028" attrSample (Except.ok rdrSample) rfl

/-- The `-block-if` value of the C2 scenario: no `":"` separator at all. -/
def cfgC2 : Config where
  blockIfMeta := "Blocked"
  passthroughMeta := ""

/-- Claim C2 (evaluation): a block-rule string without exactly one `":"` fails
the request with a 500 error, but the error message embeds the `%v` rendering
of the `*string` flag pointer (src/main.go line 171 passes `blockIfMeta`, not
`*blockIfMeta`), so the message does not contain the configuration value. -/
theorem c2_parse_error_message_is_pointer :
    parseBlockIfMeta cfgC2.blockIfMeta "0xc000012345" =
      Except.error "unexpected block-if argument: 0xc000012345" ∧
    ¬ ("Blocked".data <:+: "unexpected block-if argument: 0xc000012345".data) ∧
    (proxy cfgC2 { ifModifiedSince := none } "0xc000012345"
      (Except.ok attrSample) (Except.ok rdrSample)).status = 500 ∧
    (proxy cfgC2 { ifModifiedSince := none } "0xc000012345"
      (Except.ok attrSample) (Except.ok rdrSample)).body =
      "unexpected block-if argument: 0xc000012345\n" := by
  exact ⟨by decide, by decide, by decide, by decide⟩

/-- Claim C3: with a parsed block rule `(key, value)`, an object whose metadata
maps `key` to exactly `value` gets a bare 404 with empty body, and an object
whose metadata lacks `key` compares as the empty string, hence is never blocked
by a rule with a non-empty value. -/
theorem c3_block_rule_exact_match
    (cfg : Config) (req : Request) (ptr : String) (attr : ObjectAttrs)
    (rdrRes : Except GcsError Reader) (key value : String)
    (hparse : parseBlockIfMeta cfg.blockIfMeta ptr = Except.ok (key, value)) :
    (lookupMeta attr.metadata key = value →
      proxy cfg req ptr (Except.ok attr) rdrRes =
        { status := 404, headers := [], body := "" }) ∧
    (attr.metadata.lookup key = none → value ≠ "" →
      isBlocked cfg.blockIfMeta ptr attr = Except.ok false) := by
  constructor
  · intro hm
    have hblk : isBlocked cfg.blockIfMeta ptr attr = Except.ok true := by
      unfold isBlocked
      rw [hparse]
      simp [hm]
    simp only [proxy]
    rw [hblk]
    simp
  · intro hnone hne
    have hlk : lookupMeta attr.metadata key = "" := by simp [lookupMeta, hnone]
    unfold isBlocked
    rw [hparse]
    simp only [Except.ok.injEq, beq_eq_false_iff_ne, ne_eq, hlk]
    exact fun h => hne h.symm

/-- An object carrying the blocked marker metadata. -/
def attrBlocked : ObjectAttrs where
  name := "a.txt"
  contentType := "text/plain"
  contentLanguage := ""
  cacheControl := ""
  contentDisposition := ""
  contentEncoding := ""
  size := 5
  metadata := [("Blocked", "true")]
  updated := 2000000000

/-- Witness for C3: rule `Blocked:true` blocks an object whose metadata maps
`Blocked` to `true` (bare 404), and never blocks one lacking the key. -/
theorem c3_block_rule_exact_match_witness :
    (proxy { blockIfMeta := "Blocked:true", passthroughMeta := "" }
      { ifModifiedSince := none } "0xp" (Except.ok attrBlocked) (Except.ok rdrSample) =
      { status := 404, headers := [], body := "" }) ∧
    isBlocked (Config.blockIfMeta { blockIfMeta := "Blocked:true", passthroughMeta := "" })
      "0xp" attrSample = Except.ok false :=
  ⟨(c3_block_rule_exact_match { blockIfMeta := "Blocked:true", passthroughMeta := "" }
      { ifModifiedSince := none } "0xp" attrBlocked (Except.ok rdrSample)
      "Blocked" "true" (by decide)).1 (by decide),
   (c3_block_rule_exact_match { blockIfMeta := "Blocked:true", passthroughMeta := "" }
      { ifModifiedSince := none } "0xp" attrSample (Except.ok rdrSample)
      "Blocked" "true" (by decide)).2 (by decide) (by decide)⟩

/-- Configuration whitelisting metadata key `a` with an always-parsing,
never-matching block rule. -/
def cfgPassA : Config where
  blockIfMeta := "k:v"
  passthroughMeta := "a"

/-- Claim C1 (counterexample): a conditional request satisfied by the object
(`If-Modified-Since` equal to the truncated update time) yields 304 with empty
body, yet the passthrough metadata header `X-Goog-Meta-a` IS present, because
`writeMetadataHeaders` runs before the conditional check (src/main.go line 126
precedes lines 128-137). -/
theorem c1_not_modified_counterexample :
    proxy cfgPassA { ifModifiedSince := some (some 2000000000) } "0xp"
      (Except.ok attrSample) (Except.ok rdrSample) =
      { status := 304, headers := [("X-Goog-Meta-a", "b")], body := "" } ∧
    (proxy cfgPassA { ifModifiedSince := some (some 2000000000) } "0xp"
      (Except.ok attrSample) (Except.ok rdrSample)).headers ≠ [] := by
  exact ⟨by decide, by decide⟩

/-- Claim C1 (amended): when `If-Modified-Since` parses to a time not strictly
before the truncated update time, the response is 304 with an empty body and
exactly the passthrough metadata headers (written before the conditional
check); no content header appears, as every emitted header name carries the
passthrough name pre-string. -/
theorem c1_not_modified_meta_headers
    (cfg : Config) (req : Request) (ptr : String) (attr : ObjectAttrs)
    (rdrRes : Except GcsError Reader) (t : Int)
    (hb : isBlocked cfg.blockIfMeta ptr attr = Except.ok false)
    (hims : req.ifModifiedSince = some (some t))
    (hle : ¬ truncateSecond attr.updated > t) :
    proxy cfg req ptr (Except.ok attr) rdrRes =
      { status := 304,
        headers := writeMetadataHeaders cfg.passthroughMeta attr.metadata,
        body := "" } ∧
    ∀ nv ∈ (proxy cfg req ptr (Except.ok attr) rdrRes).headers,
      ∃ k, nv.1 = metaPrefix ++ k ∧ k ∈ parsePassthroughMeta cfg.passthroughMeta := by
  have h304 := proxy_not_modified cfg req ptr attr rdrRes (some t) hb hims (by simpa using hle)
  refine ⟨h304, ?_⟩
  intro nv hnv
  rw [h304] at hnv
  exact writeMetadataHeaders_shape hnv

/-- Witness for C1 (amended) at a concrete stale conditional request: the
response is the 304 with exactly the metadata headers, and the one header it
carries is passthrough-shaped. -/
theorem c1_not_modified_meta_headers_witness :
    (proxy cfgPassA { ifModifiedSince := some (some 2500000000) } "0xp"
      (Except.ok attrSample) (Except.ok rdrSample) =
      { status := 304,
        headers := writeMetadataHeaders cfgPassA.passthroughMeta attrSample.metadata,
        body := "" }) ∧
    (∃ k, (("X-Goog-Meta-a", "b") : String × String).1 = metaPrefix ++ k ∧
      k ∈ parsePassthroughMeta cfgPassA.passthroughMeta) :=
  ⟨(c1_not_modified_meta_headers cfgPassA { ifModifiedSince := some (some 2500000000) }
      "0xp" attrSample (Except.ok rdrSample) 2500000000 (by decide) rfl (by decide)).1,
   (c1_not_modified_meta_headers cfgPassA { ifModifiedSince := some (some 2500000000) }
      "0xp" attrSample (Except.ok rdrSample) 2500000000 (by decide) rfl (by decide)).2
     ("X-Goog-Meta-a", "b") (by decide)⟩

/-- An object updated half a second after the Go zero time, with no metadata. -/
def attrEpoch : ObjectAttrs where
  name := "a.txt"
  contentType := "text/plain"
  contentLanguage := ""
  cacheControl := ""
  contentDisposition := ""
  contentEncoding := ""
  size := 5
  metadata := []
  updated := 500000000

/-- Claim C4 (counterexample): an unparsable `If-Modified-Since` is NOT treated
as absent: `http.ParseTime` returns the zero time and the comparison still
runs, so an object whose update time truncates to the zero time is answered
304, not 200, even though it is unblocked and readable. -/
theorem c4_unparsable_header_counterexample :
    proxy { blockIfMeta := "k:v", passthroughMeta := "" }
      { ifModifiedSince := some none } "0xp"
      (Except.ok attrEpoch) (Except.ok rdrSample) =
      { status := 304, headers := [], body := "" } ∧
    (proxy { blockIfMeta := "k:v", passthroughMeta := "" }
      { ifModifiedSince := some none } "0xp"
      (Except.ok attrEpoch) (Except.ok rdrSample)).status ≠ 200 := by
  exact ⟨by decide, by decide⟩

/-- Claim C4 (amended): an unparsable `If-Modified-Since` makes the comparison
run against the zero time, so whenever the object's truncated update time is
strictly after the zero time (any realistic object), the request proceeds as
though the header were absent: 200 with the full content and no client error. -/
theorem c4_unparsable_header_zero_time
    (cfg : Config) (req : Request) (ptr : String) (attr : ObjectAttrs) (rdr : Reader)
    (hb : isBlocked cfg.blockIfMeta ptr attr = Except.ok false)
    (hims : req.ifModifiedSince = some none)
    (hupd : truncateSecond attr.updated > 0) :
    proxy cfg req ptr (Except.ok attr) (Except.ok rdr) =
      { status := 200,
        headers := writeMetadataHeaders cfg.passthroughMeta attr.metadata ++
          contentHeaders attr rdr.attrs,
        body := rdr.content } := by
  have hp : proceedsToRead req attr = true := by
    unfold proceedsToRead
    rw [hims]
    simpa using hupd
  simpa using proxy_read_path cfg req ptr attr (Except.ok rdr) hb hp

/-- Witness for C4 (amended): unparsable header, update time after zero. -/
theorem c4_unparsable_header_zero_time_witness :
    proxy { blockIfMeta := "k:v", passthroughMeta := "" }
      { ifModifiedSince := some none } "0xp"
      (Except.ok attrSample) (Except.ok rdrSample) =
      { status := 200,
        headers := writeMetadataHeaders
            (Config.passthroughMeta { blockIfMeta := "k:v", passthroughMeta := "" })
            attrSample.metadata ++
          contentHeaders attrSample rdrSample.attrs,
        body := rdrSample.content } :=
  c4_unparsable_header_zero_time { blockIfMeta := "k:v", passthroughMeta := "" }
    { ifModifiedSince := some none } "0xp" attrSample rdrSample (by decide) rfl (by decide)

/-- Claim C5: with a parsed `If-Modified-Since` time `t`, the conditional
decision is exactly: 304 with empty body when the truncated update time is at
or before `t`, and — when the reader opens — 200 with the full content when the
truncated update time is strictly after `t`. -/
theorem c5_conditional_get_decision
    (cfg : Config) (req : Request) (ptr : String) (attr : ObjectAttrs)
    (rdrRes : Except GcsError Reader) (t : Int)
    (hb : isBlocked cfg.blockIfMeta ptr attr = Except.ok false)
    (hims : req.ifModifiedSince = some (some t)) :
    (truncateSecond attr.updated ≤ t →
      proxy cfg req ptr (Except.ok attr) rdrRes =
        { status := 304,
          headers := writeMetadataHeaders cfg.passthroughMeta attr.metadata,
          body := "" }) ∧
    (truncateSecond attr.updated > t → ∀ rdr, rdrRes = Except.ok rdr →
      (proxy cfg req ptr (Except.ok attr) rdrRes).status = 200 ∧
      (proxy cfg req ptr (Except.ok attr) rdrRes).body = rdr.content) := by
  constructor
  · intro hle
    exact proxy_not_modified cfg req ptr attr rdrRes (some t) hb hims (by simp; omega)
  · intro hgt rdr hrdr
    have hp : proceedsToRead req attr = true := by
      unfold proceedsToRead
      rw [hims]
      simpa using hgt
    subst hrdr
    rw [proxy_read_path cfg req ptr attr (Except.ok rdr) hb hp]
    exact ⟨rfl, rfl⟩

/-- Witness for C5 at a fresh conditional request (update time after `t`). -/
theorem c5_conditional_get_decision_witness :
    (proxy cfgPassA { ifModifiedSince := some (some 1000000000) } "0xp"
      (Except.ok attrSample) (Except.ok rdrSample)).status = 200 ∧
    (proxy cfgPassA { ifModifiedSince := some (some 1000000000) } "0xp"
      (Except.ok attrSample) (Except.ok rdrSample)).body = rdrSample.content :=
  (c5_conditional_get_decision cfgPassA { ifModifiedSince := some (some 1000000000) }
      "0xp" attrSample (Except.ok rdrSample) 1000000000 (by decide) rfl).2
    (by decide) rdrSample rfl

/-- Claim C6: the error taxonomy of `handleError` at its two call sites on the
backend path: an attribute-fetch error maps the distinguished not-exist error
to 404 and any other error to 500, the error text (plus the newline `http.Error`
appends) as body; a reader-open error, reached when the object is unblocked and
the conditional gate passes, maps identically (with the metadata headers
already written). -/
theorem c6_error_taxonomy (cfg : Config) (req : Request) (ptr : String) :
    (∀ (e : GcsError) (rdrRes : Except GcsError Reader),
      proxy cfg req ptr (Except.error e) rdrRes =
        { status := if e = GcsError.objectNotExist then 404 else 500,
          headers := [],
          body := e.message ++ "\n" }) ∧
    (∀ (attr : ObjectAttrs) (e : GcsError),
      isBlocked cfg.blockIfMeta ptr attr = Except.ok false →
      proceedsToRead req attr = true →
      proxy cfg req ptr (Except.ok attr) (Except.error e) =
        { status := if e = GcsError.objectNotExist then 404 else 500,
          headers := writeMetadataHeaders cfg.passthroughMeta attr.metadata,
          body := e.message ++ "\n" }) := by
  constructor
  · intro e rdrRes
    simp only [proxy, handleError]
    split <;> simp_all
  · intro attr e hb hp
    rw [proxy_read_path cfg req ptr attr (Except.error e) hb hp]
    simp only [handleError]
    split <;> simp_all

/-- Witness for C6: a missing object maps to 404 with the backend message, and
a reader-open failure maps to 500 with the backend message. -/
theorem c6_error_taxonomy_witness :
    (proxy cfgPassA { ifModifiedSince := none } "0xp"
      (Except.error GcsError.objectNotExist) (Except.ok rdrSample) =
      { status := if GcsError.objectNotExist = GcsError.objectNotExist then 404 else 500,
        headers := [],
        body := GcsError.message GcsError.objectNotExist ++ "\n" }) ∧
    (proxy cfgPassA { ifModifiedSince := none } "0xp"
      (Except.ok attrSample) (Except.error (GcsError.other "boom")) =
      { status := if GcsError.other "boom" = GcsError.objectNotExist then 404 else 500,
        headers := writeMetadataHeaders cfgPassA.passthroughMeta attrSample.metadata,
        body := GcsError.message (GcsError.other "boom") ++ "\n" }) :=
  ⟨(c6_error_taxonomy cfgPassA { ifModifiedSince := none } "0xp").1
      GcsError.objectNotExist (Except.ok rdrSample),
   (c6_error_taxonomy cfgPassA { ifModifiedSince := none } "0xp").2
      attrSample (GcsError.other "boom") (by decide) (by decide)⟩

/-- An object whose only metadata entry has an empty value. -/
def attrEmptyVal : ObjectAttrs where
  name := "a.txt"
  contentType := "text/plain"
  contentLanguage := ""
  cacheControl := ""
  contentDisposition := ""
  contentEncoding := ""
  size := 5
  metadata := [("k", "")]
  updated := 2000000000

/-- Claim C7 (counterexample): metadata key `k` is whitelisted and present in
the object's metadata, the response is 200, yet no `X-Goog-Meta-k` header is
emitted, because `writeMetadataHeaders` goes through `setStrHeader`, which
drops empty values (src/main.go lines 54, 183). -/
theorem c7_passthrough_counterexample :
    "k" ∈ parsePassthroughMeta "k" ∧
    ("k", "") ∈ attrEmptyVal.metadata ∧
    (proxy { blockIfMeta := "k:v", passthroughMeta := "k" } { ifModifiedSince := none }
      "0xp" (Except.ok attrEmptyVal) (Except.ok rdrSample)).status = 200 ∧
    ("X-Goog-Meta-k", "") ∉ (proxy { blockIfMeta := "k:v", passthroughMeta := "k" }
      { ifModifiedSince := none } "0xp" (Except.ok attrEmptyVal)
      (Except.ok rdrSample)).headers := by
  exact ⟨by decide, by decide, by decide, by decide⟩

/-- Claim C7 (amended): on the 200 path the response headers are exactly the
passthrough metadata headers followed by the content headers, and a passthrough
header `(prefix ++ k, v)` is emitted precisely when `(k, v)` is a metadata
entry, `k` is in the passthrough set, and `v` is non-empty; keys outside the
set are never exposed. -/
theorem c7_passthrough_exact
    (cfg : Config) (req : Request) (ptr : String) (attr : ObjectAttrs) (rdr : Reader)
    (hb : isBlocked cfg.blockIfMeta ptr attr = Except.ok false)
    (hp : proceedsToRead req attr = true) :
    (proxy cfg req ptr (Except.ok attr) (Except.ok rdr)).status = 200 ∧
    (proxy cfg req ptr (Except.ok attr) (Except.ok rdr)).headers =
      writeMetadataHeaders cfg.passthroughMeta attr.metadata ++
        contentHeaders attr rdr.attrs ∧
    ∀ k v, ((metaPrefix ++ k, v) ∈ writeMetadataHeaders cfg.passthroughMeta attr.metadata ↔
      ((k, v) ∈ attr.metadata ∧ k ∈ parsePassthroughMeta cfg.passthroughMeta ∧ v ≠ "")) := by
  have hsrv := proxy_read_path cfg req ptr attr (Except.ok rdr) hb hp
  refine ⟨by rw [hsrv], by rw [hsrv], ?_⟩
  intro k v
  constructor
  · intro hmem
    obtain ⟨k2, v2, hnv, hm, hpass, hv⟩ := mem_writeMetadataHeaders.mp hmem
    have hk : metaPrefix ++ k = metaPrefix ++ k2 := congrArg Prod.fst hnv
    have hkk : k = k2 := stringAppend_left_cancel hk
    have hvv : v = v2 := congrArg Prod.snd hnv
    subst hkk
    subst hvv
    exact ⟨hm, hpass, hv⟩
  · intro hrhs
    exact mem_writeMetadataHeaders.mpr ⟨k, v, rfl, hrhs.1, hrhs.2.1, hrhs.2.2⟩

/-- Witness for C7 (amended): whitelisted key `a` with non-empty value `b` is
emitted on a 200 response built from the sample object. -/
theorem c7_passthrough_exact_witness :
    (proxy cfgPassA { ifModifiedSince := none } "0xp"
      (Except.ok attrSample) (Except.ok rdrSample)).status = 200 ∧
    (metaPrefix ++ "a", "b") ∈ writeMetadataHeaders cfgPassA.passthroughMeta
      attrSample.metadata :=
  ⟨(c7_passthrough_exact cfgPassA { ifModifiedSince := none } "0xp"
      attrSample rdrSample (by decide) (by decide)).1,
   ((c7_passthrough_exact cfgPassA { ifModifiedSince := none } "0xp"
      attrSample rdrSample (by decide) (by decide)).2.2 "a" "b").mpr
     ⟨by decide, by decide, by decide⟩⟩

/-- No passthrough metadata header can collide with a content header name:
every metadata header name extends the fixed pre-string. -/
theorem writeMetadataHeaders_no_collision {cfg : String} {m : List (String × String)}
    {name w : String} (hn : ¬ (metaPrefix.data <+: name.data))
    (hmem : (name, w) ∈ writeMetadataHeaders cfg m) : False := by
  obtain ⟨k, hk, _⟩ := writeMetadataHeaders_shape hmem
  exact metaPrefix_append_ne hn k hk.symm

/-- Membership in the content-header block, by cases over the seven calls in
src/main.go lines 143-149. -/
theorem mem_contentHeaders {attr : ObjectAttrs} {rattrs : ReaderAttrs} {n v : String} :
    (n, v) ∈ contentHeaders attr rattrs ↔
      ((n = "Last-Modified" ∧ v = formatHTTPTime attr.updated ∧ attr.updated ≠ 0) ∨
       (n = "Content-Type" ∧ v = attr.contentType ∧ attr.contentType ≠ "") ∨
       (n = "Content-Language" ∧ v = attr.contentLanguage ∧ attr.contentLanguage ≠ "") ∨
       (n = "Cache-Control" ∧ v = attr.cacheControl ∧ attr.cacheControl ≠ "") ∨
       (n = "Content-Encoding" ∧ v = rattrs.contentEncoding ∧ rattrs.contentEncoding ≠ "") ∨
       (n = "Content-Disposition" ∧ v = attr.contentDisposition ∧
         attr.contentDisposition ≠ "") ∨
       (n = "Content-Length" ∧ v = toString rattrs.size ∧ 0 < rattrs.size)) := by
  simp only [contentHeaders, List.mem_append, mem_setStrHeader, mem_setTimeHeader,
    mem_setIntHeader, or_assoc]

/-- A header whose name does not extend the passthrough pre-string lies in the
appended 200 headers precisely when it lies in the content-header block. -/
theorem mem_serve_headers {cfg : String} {attr : ObjectAttrs} {rattrs : ReaderAttrs}
    {name w : String} (hn : ¬ (metaPrefix.data <+: name.data)) :
    ((name, w) ∈ writeMetadataHeaders cfg attr.metadata ++ contentHeaders attr rattrs) ↔
      (name, w) ∈ contentHeaders attr rattrs := by
  rw [List.mem_append]
  constructor
  · rintro (h | h)
    · exact absurd h (writeMetadataHeaders_no_collision hn)
    · exact h
  · exact Or.inr

/-- Claim C8: on the 200 path, each string-valued content header is present
exactly when its source is non-empty (`Content-Type`, `Content-Language`,
`Cache-Control`, `Content-Disposition` from the object attributes,
`Content-Encoding` from the reader's attributes), and `Content-Length` is
present exactly when the reader's size is strictly positive. -/
theorem c8_content_header_presence
    (cfg : Config) (req : Request) (ptr : String) (attr : ObjectAttrs) (rdr : Reader)
    (hb : isBlocked cfg.blockIfMeta ptr attr = Except.ok false)
    (hp : proceedsToRead req attr = true) :
    ∀ v : String,
      ((("Content-Type", v) ∈
          (proxy cfg req ptr (Except.ok attr) (Except.ok rdr)).headers) ↔
        (attr.contentType ≠ "" ∧ v = attr.contentType)) ∧
      ((("Content-Language", v) ∈
          (proxy cfg req ptr (Except.ok attr) (Except.ok rdr)).headers) ↔
        (attr.contentLanguage ≠ "" ∧ v = attr.contentLanguage)) ∧
      ((("Cache-Control", v) ∈
          (proxy cfg req ptr (Except.ok attr) (Except.ok rdr)).headers) ↔
        (attr.cacheControl ≠ "" ∧ v = attr.cacheControl)) ∧
      ((("Content-Disposition", v) ∈
          (proxy cfg req ptr (Except.ok attr) (Except.ok rdr)).headers) ↔
        (attr.contentDisposition ≠ "" ∧ v = attr.contentDisposition)) ∧
      ((("Content-Encoding", v) ∈
          (proxy cfg req ptr (Except.ok attr) (Except.ok rdr)).headers) ↔
        (rdr.attrs.contentEncoding ≠ "" ∧ v = rdr.attrs.contentEncoding)) ∧
      ((("Content-Length", v) ∈
          (proxy cfg req ptr (Except.ok attr) (Except.ok rdr)).headers) ↔
        (0 < rdr.attrs.size ∧ v = toString rdr.attrs.size)) := by
  have hH : (proxy cfg req ptr (Except.ok attr) (Except.ok rdr)).headers =
      writeMetadataHeaders cfg.passthroughMeta attr.metadata ++
        contentHeaders attr rdr.attrs := by
    rw [proxy_read_path cfg req ptr attr (Except.ok rdr) hb hp]
  intro v
  rw [hH]
  refine ⟨?_, ?_, ?_, ?_, ?_, ?_⟩ <;>
  · rw [mem_serve_headers (by decide), mem_contentHeaders]
    simp
    tauto

/-- Witness for C8: the sample 200 response carries `Content-Type: text/plain`
and no `Content-Language` header. -/
theorem c8_content_header_presence_witness :
    ("Content-Type", "text/plain") ∈ (proxy cfgPassA { ifModifiedSince := none } "0xp"
      (Except.ok attrSample) (Except.ok rdrSample)).headers ∧
    ("Content-Language", "x") ∉ (proxy cfgPassA { ifModifiedSince := none } "0xp"
      (Except.ok attrSample) (Except.ok rdrSample)).headers :=
  ⟨((c8_content_header_presence cfgPassA { ifModifiedSince := none } "0xp"
      attrSample rdrSample (by decide) (by decide)) "text/plain").1.mpr
     ⟨by decide, rfl⟩,
   fun hmem => absurd (((c8_content_header_presence cfgPassA { ifModifiedSince := none }
      "0xp" attrSample rdrSample (by decide) (by decide)) "x").2.1.mp hmem)
     (by decide)⟩

end Gcsproxy
